import Mathlib

/-!
# Codele backend — content scheduling and fallback-selection core

A shallow embedding of the scheduling/selection/validation logic of the
Codele backend (FastAPI + Beanie/MongoDB daily-coding-puzzle service),
together with theorems settling the specification claims about it.

Embedding conventions:
* `YYYY-MM-DD` date keys are Lean `String`s, compared with the
  code-point-lexicographic order `lexLt` (the semantics of Python's
  string `<`).
* Calendar dates are the structure `DateT` (proleptic Gregorian, as used
  by Python's `datetime.date`).
* The MongoDB collections are Lean lists in insertion order; `get` is
  `List.find?` on the `id` field, `insert`/`insert_many` append, and
  `delete` filters the key out.
* Fallible endpoints return `Except ApiError _`; `ApiError` mirrors the
  `HTTPException` kinds raised by the routers.
* `async` plays no role in the claims: each handler is modelled as a pure
  function of its inputs plus the store contents and the current UTC
  date, which are passed explicitly.
-/

namespace Codele

/-! ## DateKey utilities: characters, digits, lexicographic order -/

/-- ASCII decimal digit test (the `\d` class restricted to ASCII). -/
def isDigitCh (c : Char) : Bool :=
  48 ≤ c.toNat && c.toNat ≤ 57

/-- The ASCII digit character for `n % 10`. -/
def digitChar (n : Nat) : Char :=
  Char.ofNat (48 + n % 10)

/-- Numeric value of a list of ASCII digit characters (as `int()` on the
digit substrings captured by `strptime`). -/
def natOfDigits (cs : List Char) : Nat :=
  cs.foldl (fun n c => n * 10 + (c.toNat - 48)) 0

/-- Python's string `<`: lexicographic comparison of code points, a
proper prefix being smaller. This is the comparison behind every
`date_key` ordering in the code (`p.id > today`, Mongo range queries on
`_id`, `start_date <= today`, …). -/
def lexLt : List Char → List Char → Bool
  | _, [] => false
  | [], _ :: _ => true
  | a :: as, b :: bs =>
    if a.toNat < b.toNat then true
    else if b.toNat < a.toNat then false
    else lexLt as bs

/-- Python `a < b` on strings. -/
def pyLt (a b : String) : Bool :=
  lexLt a.data b.data

/-- Python `a <= b` on strings (total order: `a <= b ↔ ¬ b < a`). -/
def pyLe (a b : String) : Bool :=
  !lexLt b.data a.data

theorem lexLt_irrefl : ∀ l : List Char, lexLt l l = false := by
  intro l
  induction l with
  | nil => rfl
  | cons a as ih => simp [lexLt, ih]

theorem lexLt_trans : ∀ {a b c : List Char},
    lexLt a b = true → lexLt b c = true → lexLt a c = true := by
  intro a
  induction a with
  | nil =>
    intro b c h1 h2
    cases b with
    | nil => simp [lexLt] at h1
    | cons x xs =>
      cases c with
      | nil => simp [lexLt] at h2
      | cons y ys => simp [lexLt]
  | cons a as ih =>
    intro b c h1 h2
    cases b with
    | nil => simp [lexLt] at h1
    | cons x xs =>
      cases c with
      | nil => simp [lexLt] at h2
      | cons y ys =>
        simp only [lexLt] at h1 h2 ⊢
        split_ifs at h1 h2 ⊢ <;> first
          | rfl
          | omega
          | exact ih h1 h2

theorem lexLt_eq_of_not_lt : ∀ {a b : List Char},
    lexLt a b = false → lexLt b a = false → a = b := by
  intro a
  induction a with
  | nil =>
    intro b h1 _
    cases b with
    | nil => rfl
    | cons x xs => simp [lexLt] at h1
  | cons a as ih =>
    intro b h1 h2
    cases b with
    | nil => simp [lexLt] at h2
    | cons x xs =>
      simp only [lexLt] at h1 h2
      split_ifs at h1 h2 <;> try omega
      have hax : a = x := by
        have : a.toNat = x.toNat := by omega
        calc a = Char.ofNat a.toNat := (Char.ofNat_toNat a).symm
          _ = Char.ofNat x.toNat := by rw [this]
          _ = x := Char.ofNat_toNat x
      rw [hax, ih h1 h2]

theorem lexLt_asymm {a b : List Char} (h : lexLt a b = true) :
    lexLt b a = false := by
  by_contra hc
  have hba : lexLt b a = true := by
    cases hh : lexLt b a with
    | false => exact absurd hh hc
    | true => rfl
  have := lexLt_trans h hba
  rw [lexLt_irrefl] at this
  exact Bool.false_ne_true this

/-! ## Calendar dates (`datetime.date` semantics, proleptic Gregorian) -/

/-- A calendar date, as Python's `datetime.date`. -/
structure DateT where
  year : Nat
  month : Nat
  day : Nat
deriving DecidableEq, Repr

/-- Gregorian leap-year rule (`calendar.isleap`). -/
def isLeap (y : Nat) : Bool :=
  (y % 4 == 0 && y % 100 != 0) || y % 400 == 0

/-- Days in a month (`calendar.monthrange`). -/
def daysInMonth (y m : Nat) : Nat :=
  if m = 4 ∨ m = 6 ∨ m = 9 ∨ m = 11 then 30
  else if m = 2 then (if isLeap y then 29 else 28)
  else 31

/-- `d + timedelta(days=1)`. -/
def nextDay (d : DateT) : DateT :=
  if d.day < daysInMonth d.year d.month then ⟨d.year, d.month, d.day + 1⟩
  else if d.month < 12 then ⟨d.year, d.month + 1, 1⟩
  else ⟨d.year + 1, 1, 1⟩

/-- `d + timedelta(days=n)`. -/
def addDays (d : DateT) (n : Nat) : DateT :=
  Nat.iterate nextDay n d

/-- Last two decimal digits, zero padded (`f"{n:02d}"` for `n < 100`). -/
def pad2 (n : Nat) : List Char :=
  [digitChar (n / 10), digitChar n]

/-- Last four decimal digits, zero padded (`f"{n:04d}"` for `n < 10000`). -/
def pad4 (n : Nat) : List Char :=
  [digitChar (n / 1000), digitChar (n / 100), digitChar (n / 10), digitChar n]

/-- The character list under `d.strftime("%Y-%m-%d")`. -/
def fmtChars (d : DateT) : List Char :=
  pad4 d.year ++ '-' :: (pad2 d.month ++ '-' :: pad2 d.day)

/-- `d.strftime("%Y-%m-%d")`: the canonical zero-padded date key. -/
def formatDate (d : DateT) : String :=
  String.mk (fmtChars d)

/-- `datetime.strptime(s, "%Y-%m-%d")` on a character list. CPython's
`_strptime` matches `%Y` as exactly four digits, `%m` as one or two
digits valued 1..12, `%d` as one or two digits valued 1..31 (so
zero-padding of month and day is NOT required), demands the match to
consume the whole string, and then lets the `datetime` constructor
reject day numbers past the month's end and year 0. -/
def strptimeChars (cs : List Char) : Option DateT :=
  match cs with
  | y1 :: y2 :: y3 :: y4 :: '-' :: rest =>
    if isDigitCh y1 && isDigitCh y2 && isDigitCh y3 && isDigitCh y4 then
      let mseg := rest.takeWhile isDigitCh
      let rest2 := rest.dropWhile isDigitCh
      match rest2 with
      | '-' :: rest3 =>
        let dseg := rest3.takeWhile isDigitCh
        let rest4 := rest3.dropWhile isDigitCh
        if rest4.isEmpty && (mseg.length = 1 || mseg.length = 2)
            && (dseg.length = 1 || dseg.length = 2) then
          let y := natOfDigits [y1, y2, y3, y4]
          let m := natOfDigits mseg
          let d := natOfDigits dseg
          if 1 ≤ y && 1 ≤ m && m ≤ 12 && 1 ≤ d && d ≤ daysInMonth y m then
            some ⟨y, m, d⟩
          else none
        else none
      | _ => none
    else none
  | _ => none

/-- `datetime.strptime(s, "%Y-%m-%d").date()`. -/
def strptimeDate (s : String) : Option DateT :=
  strptimeChars s.data

/-- Python comparison `d1 < d2` on `datetime.date` values:
lexicographic on the `(year, month, day)` triple. -/
def chronoLt (d1 d2 : DateT) : Prop :=
  d1.year < d2.year ∨
    (d1.year = d2.year ∧
      (d1.month < d2.month ∨ (d1.month = d2.month ∧ d1.day < d2.day)))

instance : Decidable (chronoLt d1 d2) := by
  unfold chronoLt; infer_instance

/-- A date `datetime` can hold whose canonical key is genuinely
`YYYY-MM-DD` (four-digit year, so `strftime` zero-pads everything). -/
def validDate (d : DateT) : Prop :=
  1000 ≤ d.year ∧ d.year ≤ 9999 ∧ 1 ≤ d.month ∧ d.month ≤ 12 ∧
    1 ≤ d.day ∧ d.day ≤ daysInMonth d.year d.month

instance : Decidable (validDate d) := by
  unfold validDate; infer_instance

/-! ## Order-equivalence machinery for canonical date keys -/

theorem toNat_digitChar (n : Nat) : (digitChar n).toNat = 48 + n % 10 := by
  have h : n % 10 < 10 := Nat.mod_lt _ (by norm_num)
  unfold digitChar
  generalize n % 10 = k at h ⊢
  interval_cases k <;> rfl

theorem isDigitCh_digitChar (n : Nat) : isDigitCh (digitChar n) = true := by
  have h : n % 10 < 10 := Nat.mod_lt _ (by norm_num)
  simp only [isDigitCh, toNat_digitChar, Bool.and_eq_true, decide_eq_true_eq]
  omega

theorem isDigitCh_dash : isDigitCh '-' = false := by decide

theorem daysInMonth_le_31 (y m : Nat) : daysInMonth y m ≤ 31 := by
  unfold daysInMonth
  split_ifs <;> omega

/-- The number `y*10000 + m*100 + d`, which orders dates chronologically. -/
def dateKeyNum (d : DateT) : Nat :=
  d.year * 10000 + d.month * 100 + d.day

theorem chronoLt_iff_keyNum {d1 d2 : DateT}
    (hm1 : d1.month < 100) (hd1 : d1.day < 100)
    (hm2 : d2.month < 100) (hd2 : d2.day < 100) :
    chronoLt d1 d2 ↔ dateKeyNum d1 < dateKeyNum d2 := by
  unfold chronoLt dateKeyNum
  omega

theorem validDate_bounds {d : DateT} (h : validDate d) :
    d.year < 10000 ∧ d.month < 100 ∧ d.day < 100 := by
  have := daysInMonth_le_31 d.year d.month
  obtain ⟨h1, h2, h3, h4, h5, h6⟩ := h
  omega

/-- Zero-padded `YYYY-MM-DD` formatting carries the string order to the
numeric (hence chronological) order. -/
theorem lexLt_cons_eq (a b : Char) (as bs : List Char) :
    lexLt (a :: as) (b :: bs) =
      (if a.toNat < b.toNat then true
       else if b.toNat < a.toNat then false
       else lexLt as bs) := rfl

theorem lexLt_nil_nil : lexLt [] [] = false := rfl

theorem dash_toNat : ('-' : Char).toNat = 45 := rfl

theorem lexLt_append_same_length (l1 : List Char) :
    ∀ (l2 : List Char) (r1 r2 : List Char), l1.length = l2.length →
    lexLt (l1 ++ r1) (l2 ++ r2) =
      (if lexLt l1 l2 = true then true
       else if lexLt l2 l1 = true then false
       else lexLt r1 r2) := by
  induction l1 with
  | nil =>
    intro l2 r1 r2 h
    cases l2 with
    | nil => simp [lexLt]
    | cons b bs => simp at h
  | cons a as ih =>
    intro l2 r1 r2 h
    cases l2 with
    | nil => simp at h
    | cons b bs =>
      simp only [List.cons_append, lexLt_cons_eq]
      by_cases h1 : a.toNat < b.toNat
      · simp [h1]
      · by_cases h2 : b.toNat < a.toNat
        · simp [h1, h2]
        · simp only [h1, h2, if_false]
          exact ih bs r1 r2 (by simpa using h)

theorem pad4_lt_iff (a b : Nat) (ha : a < 10000) (hb : b < 10000) :
    lexLt (pad4 a) (pad4 b) = true ↔ a < b := by
  unfold pad4
  simp only [lexLt_cons_eq, lexLt_nil_nil, toNat_digitChar]
  split_ifs <;> first
    | exact iff_of_true rfl (by omega)
    | exact iff_of_false (by simp) (by omega)

theorem pad2_lt_iff (a b : Nat) (ha : a < 100) (hb : b < 100) :
    lexLt (pad2 a) (pad2 b) = true ↔ a < b := by
  unfold pad2
  simp only [lexLt_cons_eq, lexLt_nil_nil, toNat_digitChar]
  split_ifs <;> first
    | exact iff_of_true rfl (by omega)
    | exact iff_of_false (by simp) (by omega)

/-- Zero-padded `YYYY-MM-DD` formatting carries the string order to the
numeric (hence chronological) order. -/
theorem lexLt_fmtChars_iff {d1 d2 : DateT}
    (hy1 : d1.year < 10000) (hm1 : d1.month < 100) (hd1 : d1.day < 100)
    (hy2 : d2.year < 10000) (hm2 : d2.month < 100) (hd2 : d2.day < 100) :
    lexLt (fmtChars d1) (fmtChars d2) = true ↔ dateKeyNum d1 < dateKeyNum d2 := by
  unfold fmtChars dateKeyNum
  rw [lexLt_append_same_length _ _ _ _ (by simp [pad4])]
  rcases Nat.lt_trichotomy d1.year d2.year with hy | hy | hy
  · rw [if_pos ((pad4_lt_iff _ _ hy1 hy2).mpr hy)]
    exact iff_of_true rfl (by omega)
  · have hp : pad4 d1.year = pad4 d2.year := by rw [hy]
    rw [hp, lexLt_irrefl, if_neg (by simp), if_neg (by simp), lexLt_cons_eq,
      if_neg (by decide), if_neg (by decide),
      lexLt_append_same_length _ _ _ _ (by simp [pad2])]
    rcases Nat.lt_trichotomy d1.month d2.month with hm | hm | hm
    · rw [if_pos ((pad2_lt_iff _ _ hm1 hm2).mpr hm)]
      exact iff_of_true rfl (by omega)
    · have hq : pad2 d1.month = pad2 d2.month := by rw [hm]
      rw [hq, lexLt_irrefl, if_neg (by simp), if_neg (by simp), lexLt_cons_eq,
        if_neg (by decide), if_neg (by decide), pad2_lt_iff _ _ hd1 hd2]
      omega
    · have hnot : ¬ (lexLt (pad2 d1.month) (pad2 d2.month) = true) := by
        rw [pad2_lt_iff _ _ hm1 hm2]; omega
      rw [if_neg hnot, if_pos ((pad2_lt_iff _ _ hm2 hm1).mpr hm)]
      exact iff_of_false (by simp) (by omega)
  · have hnot : ¬ (lexLt (pad4 d1.year) (pad4 d2.year) = true) := by
      rw [pad4_lt_iff _ _ hy1 hy2]; omega
    rw [if_neg hnot, if_pos ((pad4_lt_iff _ _ hy2 hy1).mpr hy)]
    exact iff_of_false (by simp) (by omega)

theorem natOfDigits4 (y : Nat) (h : y < 10000) :
    natOfDigits [digitChar (y / 1000), digitChar (y / 100),
      digitChar (y / 10), digitChar y] = y := by
  simp [natOfDigits, toNat_digitChar]
  omega

theorem natOfDigits2 (m : Nat) (h : m < 100) :
    natOfDigits [digitChar (m / 10), digitChar m] = m := by
  simp [natOfDigits, toNat_digitChar]
  omega

/-- Round trip: `strptime` re-reads every canonical `strftime` key. -/
theorem strptime_format {d : DateT} (hv : validDate d) :
    strptimeDate (formatDate d) = some d := by
  obtain ⟨y, m, dd⟩ := d
  obtain ⟨h1, h2, h3, h4, h5, h6⟩ := hv
  simp only [DateT.year] at *
  have hy : y < 10000 := by omega
  have hm : m < 100 := by omega
  have hd31 := daysInMonth_le_31 y m
  have hd : dd < 100 := by omega
  show strptimeChars (fmtChars ⟨y, m, dd⟩) = some ⟨y, m, dd⟩
  unfold fmtChars pad4 pad2
  simp only [List.cons_append, List.nil_append]
  unfold strptimeChars
  simp only [isDigitCh_digitChar, Bool.and_self, if_true,
    List.takeWhile_cons, List.dropWhile_cons, isDigitCh_dash,
    Bool.false_eq_true, if_false, List.takeWhile_nil, List.dropWhile_nil,
    List.isEmpty_nil, List.length_cons, List.length_nil,
    natOfDigits4 y hy, natOfDigits2 m hm, natOfDigits2 dd hd]
  norm_num
  omega

/-! ## SHA-256 (`hashlib.sha256`), on byte lists, words as `Nat % 2^32` -/

/-- Truncation to a 32-bit word. -/
def m32 (n : Nat) : Nat := n % 4294967296

/-- 32-bit rotate right (input below `2^32`). -/
def rotr32 (x n : Nat) : Nat := m32 ((x >>> n) ||| (x <<< (32 - n)))

/-- The 64 SHA-256 round constants. -/
def shaK : List Nat :=
  [1116352408, 1899447441, 3049323471, 3921009573, 961987163,
   1508970993, 2453635748, 2870763221, 3624381080, 310598401,
   607225278, 1426881987, 1925078388, 2162078206, 2614888103,
   3248222580, 3835390401, 4022224774, 264347078, 604807628,
   770255983, 1249150122, 1555081692, 1996064986, 2554220882,
   2821834349, 2952996808, 3210313671, 3336571891, 3584528711,
   113926993, 338241895, 666307205, 773529912, 1294757372,
   1396182291, 1695183700, 1986661051, 2177026350, 2456956037,
   2730485921, 2820302411, 3259730800, 3345764771, 3516065817,
   3600352804, 4094571909, 275423344, 430227734, 506948616,
   659060556, 883997877, 958139571, 1322822218, 1537002063,
   1747873779, 1955562222, 2024104815, 2227730452, 2361852424,
   2428436474, 2756734187, 3204031479, 3329325298]

/-- The SHA-256 initial hash state. -/
def shaH0 : List Nat :=
  [1779033703, 3144134277, 1013904242, 2773480762,
   1359893119, 2600822924, 528734635, 1541459225]

/-- Big-endian byte expansion of `n` into `k` bytes. -/
def toBytesBE (k n : Nat) : List Nat :=
  (List.range k).map (fun i => (n >>> (8 * (k - 1 - i))) % 256)

/-- Group bytes into big-endian 32-bit words. -/
def toWords : List Nat → List Nat
  | a :: b :: c :: d :: rest =>
    (a * 16777216 + b * 65536 + c * 256 + d) :: toWords rest
  | _ => []

/-- SHA-256 padding: `0x80`, zeros to 56 mod 64, 64-bit bit length. -/
def sha256Pad (msg : List Nat) : List Nat :=
  let L := msg.length
  msg ++ 128 :: List.replicate ((119 - L % 64) % 64) 0 ++ toBytesBE 8 (8 * L)

/-- Split into 64-byte blocks (fuel recursion so the kernel can reduce it;
the fuel `bs.length` always suffices since each step consumes a byte). -/
def chunk64Aux : Nat → List Nat → List (List Nat)
  | 0, _ => []
  | _, [] => []
  | fuel + 1, b :: rest => (b :: rest.take 63) :: chunk64Aux fuel (rest.drop 63)

/-- Split a padded message into 64-byte blocks. -/
def chunk64 (bs : List Nat) : List (List Nat) :=
  chunk64Aux bs.length bs

/-- Extend 16 message words to the 64-word schedule. -/
def schedule (w0 : List Nat) : List Nat :=
  (List.range 48).foldl (fun w i =>
    let a := w.getD (i + 1) 0
    let b := w.getD (i + 14) 0
    let s0 := (rotr32 a 7) ^^^ (rotr32 a 18) ^^^ (a >>> 3)
    let s1 := (rotr32 b 17) ^^^ (rotr32 b 19) ^^^ (b >>> 10)
    w ++ [m32 (w.getD i 0 + s0 + w.getD (i + 9) 0 + s1)]) w0

/-- One SHA-256 compression round over a 64-byte block. -/
def sha256Compress (hs : List Nat) (block : List Nat) : List Nat :=
  let w := schedule (toWords block)
  let final := (List.range 64).foldl (fun st i =>
    match st with
    | [a, b, c, d, e, f, g, h] =>
      let s1 := (rotr32 e 6) ^^^ (rotr32 e 11) ^^^ (rotr32 e 25)
      let ch := (e &&& f) ^^^ ((e ^^^ 4294967295) &&& g)
      let t1 := m32 (h + s1 + ch + shaK.getD i 0 + w.getD i 0)
      let s0 := (rotr32 a 2) ^^^ (rotr32 a 13) ^^^ (rotr32 a 22)
      let mj := (a &&& b) ^^^ (a &&& c) ^^^ (b &&& c)
      let t2 := m32 (s0 + mj)
      [m32 (t1 + t2), a, b, c, m32 (d + t1), e, f, g]
    | other => other) hs
  match hs, final with
  | [h0, h1, h2, h3, h4, h5, h6, h7], [a, b, c, d, e, f, g, h] =>
    [m32 (h0 + a), m32 (h1 + b), m32 (h2 + c), m32 (h3 + d),
     m32 (h4 + e), m32 (h5 + f), m32 (h6 + g), m32 (h7 + h)]
  | _, _ => hs

/-- The 32-byte SHA-256 digest of a byte list. -/
def sha256Bytes (msg : List Nat) : List Nat :=
  ((chunk64 (sha256Pad msg)).foldl sha256Compress shaH0).flatMap (toBytesBE 4)

/-- UTF-8 encoding of one character, as byte values. -/
def utf8EncodeCharNat (c : Char) : List Nat :=
  let n := c.toNat
  if n < 128 then [n]
  else if n < 2048 then [192 + n / 64, 128 + n % 64]
  else if n < 65536 then [224 + n / 4096, 128 + n / 64 % 64, 128 + n % 64]
  else [240 + n / 262144, 128 + n / 4096 % 64, 128 + n / 64 % 64, 128 + n % 64]

/-- `s.encode()`: the UTF-8 bytes of a string. -/
def utf8Bytes (s : String) : List Nat := s.data.flatMap utf8EncodeCharNat

/-- `int(hashlib.sha256(s.encode()).hexdigest(), 16)`: the digest read as
a big-endian non-negative integer. -/
def sha256StrNum (s : String) : Nat :=
  (sha256Bytes (utf8Bytes s)).foldl (fun acc b => acc * 256 + b) 0

set_option maxRecDepth 100000 in
/-- Sanity check of the SHA-256 embedding against the FIPS 180 test
vector `sha256("abc")`. -/
theorem sha256StrNum_abc :
    sha256StrNum "abc" =
      0xba7816bf8f01cfea414140de5dae2223b00361a396177a9cb410ff61f20015ad := by
  decide

set_option maxRecDepth 100000 in
/-- Sanity check against the empty-message test vector. -/
theorem sha256StrNum_empty :
    sha256StrNum "" =
      0xe3b0c44298fc1c149afbf4c8996fb92427ae41e4649b934ca495991b7852b855 := by
  decide

/-! ## Data model (`src/shared/models/problem.py`) -/

/-- A single test case of a problem (`TestCase`). -/
structure TestCase where
  id : Nat
  type : String
  hint : String
  input : String
  expected_output : String
deriving DecidableEq, Repr

/-- A daily problem document (`DailyProblem`); its `id` is the
`YYYY-MM-DD` date key and Mongo primary key. The optional `embedding`
vector (floats, unused by the scheduling core) is omitted. -/
structure DailyProblem where
  id : String
  title : String
  difficulty : String
  description : String
  starter_code : String
  test_cases : List TestCase
  topics : List String
deriving DecidableEq, Repr

/-- A theme batch descriptor (`WeeklyTheme`). `tid` stands for the Mongo
ObjectId; `generated_at` is an abstract timestamp. -/
structure WeeklyTheme where
  tid : Nat
  theme : String
  start_date : String := ""
  end_date : String := ""
  count : Nat := 7
  week_id : Option String := none
  generated_at : Nat := 0
deriving DecidableEq, Repr

/-- The `HTTPException` kinds raised by the routers:
400 invalid date, 403 future content, 404 not found,
404 empty-store fallback, 409 duplicate date on move. -/
inductive ApiError where
  | invalidDateFormat
  | futureContentForbidden
  | notFound
  | noContentAvailable
  | duplicateKey
deriving DecidableEq, Repr

/-- `DailyProblem.get(key)`: the document with the given primary key.
The store is the collection in insertion (natural) order. -/
def storeGet (store : List DailyProblem) (key : String) : Option DailyProblem :=
  store.find? (fun p => p.id == key)

/-! ## Public routers (`src/routers/problems.py`, `src/api/routers/…`) -/

/-- The JSON returned by `GET /api/v1/problem/today`: a problem dump,
plus the `_fallback` flag and `_original_date` keys merged in when the
Infinite Fallback was used. -/
structure TodayResponse where
  problem : DailyProblem
  isFallback : Bool
  originalDate : Option String
deriving DecidableEq, Repr

/-- `get_today_problem` (`src/routers/problems.py`): serve today's
problem; when absent, the Infinite Fallback hashes the date key with
SHA-256 and picks an existing problem by index; when the store is empty,
404 "No problems available". -/
def get_today_problem (store : List DailyProblem) (today_key : String) :
    Except ApiError TodayResponse :=
  match storeGet store today_key with
  | some p => .ok ⟨p, false, none⟩
  | none =>
    let all_problems := store
    if h : all_problems.length = 0 then
      .error .noContentAvailable
    else
      let date_hash := sha256StrNum today_key
      let index := date_hash % all_problems.length
      .ok ⟨all_problems.get ⟨index, Nat.mod_lt _ (Nat.pos_of_ne_zero h)⟩,
        true, some today_key⟩

/-- `get_problem_by_date` (same logic in `src/routers/problems.py` and
`src/api/routers/problems.py`): strict order of checks — `strptime`
parse (400), time-lock comparing the parsed dates (403), then the store
read (404). The store is consulted only after both checks pass, with the
raw string as key. -/
def get_problem_by_date (dateStr : String) (store : List DailyProblem)
    (today : DateT) : Except ApiError DailyProblem :=
  match strptimeDate dateStr with
  | none => .error .invalidDateFormat
  | some requested =>
    if chronoLt today requested then .error .futureContentForbidden
    else
      match storeGet store dateStr with
      | none => .error .notFound
      | some p => .ok p

/-- Stable insertion step: `x` goes after every element strictly before
it, and before the first element not strictly before it. -/
def pyInsertSorted (before : α → α → Bool) (x : α) : List α → List α
  | [] => [x]
  | y :: ys => if before y x then y :: pyInsertSorted before x ys
               else x :: y :: ys

/-- Python's stable `list.sort` with a strict ordering on keys:
elements comparing equal keep their original relative order. -/
def pySort (before : α → α → Bool) : List α → List α
  | [] => []
  | x :: xs => pyInsertSorted before x (pySort before xs)

theorem mem_pyInsertSorted (before : α → α → Bool) (x a : α) :
    ∀ l : List α, a ∈ pyInsertSorted before x l ↔ a = x ∨ a ∈ l := by
  intro l
  induction l with
  | nil => simp [pyInsertSorted]
  | cons y ys ih =>
    simp only [pyInsertSorted]
    split_ifs with h <;> simp only [List.mem_cons, ih] <;> tauto

theorem mem_pySort (before : α → α → Bool) (a : α) :
    ∀ l : List α, a ∈ pySort before l ↔ a ∈ l := by
  intro l
  induction l with
  | nil => simp [pySort]
  | cons x xs ih =>
    simp only [pySort, mem_pyInsertSorted, ih, List.mem_cons]

/-- One day of the Tier-1 calendar response. -/
structure CalEntry where
  date : String
  title : String
  difficulty : String
deriving DecidableEq, Repr

/-- `f"{year:04d}-{month_num:02d}"`. -/
def monthKey (year mnum : Nat) : String :=
  String.mk (pad4 year ++ '-' :: pad2 mnum)

/-- `get_month_calendar` (`src/api/routers/calendar.py`): the `month`
query parameter is regex-validated to `YYYY-MM` by FastAPI, so it is
modelled by its two numeric components. Problems of the month are
fetched by an `_id` range query, entries dated after today are skipped,
and the rest is sorted by date. -/
def get_month_calendar (year mnum : Nat) (store : List DailyProblem)
    (todayKey : String) : Except String (List CalEntry) :=
  if 1 ≤ mnum ∧ mnum ≤ 12 then
    let mk := monthKey year mnum
    let problems := store.filter (fun p =>
      pyLe (mk ++ "-01") p.id && pyLe p.id (mk ++ "-31"))
    let entries := (problems.filter (fun p => !(pyLt todayKey p.id))).map
      (fun p => CalEntry.mk p.id p.title p.difficulty)
    .ok (pySort (fun a b => pyLt a.date b.date) entries)
  else .error "Invalid month format. Use YYYY-MM."

/-- `get_themes` (`src/api/routers/themes.py`): filter to themes with
`start_date <= today`, optionally to themes starting in the given
month (also regex-validated, hence numeric components here), most
recent `start_date` first. -/
def get_themes (monthOpt : Option (Nat × Nat)) (themes : List WeeklyTheme)
    (todayKey : String) : List WeeklyTheme :=
  let keep := fun (t : WeeklyTheme) =>
    pyLe t.start_date todayKey &&
      (match monthOpt with
       | none => true
       | some (y, m) =>
         let mStart := monthKey y m ++ "-01"
         let nextMonth :=
           if m = 12 then monthKey (y + 1) 1 ++ "-01"
           else monthKey y (m + 1) ++ "-01"
         pyLe mStart t.start_date && pyLt t.start_date nextMonth)
  pySort (fun a b => pyLt b.start_date a.start_date) (themes.filter keep)

/-! ## Content engine (`src/shared/services/content_engine.py`) -/

/-- The base difficulty cycle (`DIFFICULTY_CYCLE`). -/
def DIFFICULTY_CYCLE : List String :=
  ["Easy", "Easy", "Medium", "Medium", "Hard", "Hard", "Medium"]

/-- `get_difficulty_sequence`: cycle through the pattern for any count. -/
def get_difficulty_sequence (count : Nat) : List String :=
  (List.range count).map (fun i => DIFFICULTY_CYCLE.getD (i % DIFFICULTY_CYCLE.length) "")

/-- The `find_all(sort=[("-_id", -1)], limit=1)` query of
`_find_next_open_date`. The sort argument is the tuple `("-_id", -1)`:
Beanie's `FindMany.sort` parses the `-`/`+` prefix only on bare string
arguments and appends `(field, direction)` tuples verbatim, so MongoDB
is asked to sort on the nonexistent field `"-_id"`. Every document ties
on a missing field, the server falls back to natural (insertion) order,
and `limit 1` yields the first-inserted document — not the record with
the greatest date key that the function's docstring intends. -/
def findLatestByKey (ps : List DailyProblem) : Option DailyProblem :=
  ps.head?

/-- `_find_next_open_date`: the day after the document produced by the
latest-record query above (because of the malformed sort, the
first-inserted document rather than the latest-dated one), or today's
UTC date on an empty store. `none` models the `ValueError` `strptime`
would raise on a malformed stored key. -/
def find_next_open_date (ps : List DailyProblem) (today : DateT) : Option DateT :=
  match findLatestByKey ps with
  | some latest => (strptimeDate latest.id).map nextDay
  | none => some today

/-- A test-case schema produced by the external generator. -/
structure DraftCase where
  type : String
  hint : String
  input : String
  expected : String
deriving DecidableEq, Repr

/-- A problem draft produced by the external generator (no date). -/
structure Draft where
  title : String
  description : String
  starter_code : String
  topics : List String
  test_cases : List DraftCase
deriving DecidableEq, Repr

/-- The test-case mapping inside `_build_problems`: sequential ids from
1, category lower-cased. -/
def mapCasesAux : Nat → List DraftCase → List TestCase
  | _, [] => []
  | idx, tc :: rest =>
    ⟨idx + 1, tc.type.toLower, tc.hint, tc.input, tc.expected⟩ ::
      mapCasesAux (idx + 1) rest

/-- The loop of `_build_problems`: position `i`, running date, remaining
drafts. `difficulties[i]` is total here via `getD`; the claims only use
it with as many drafts as `count`, where the default is never taken. -/
def build_problems_go (difficulties : List String) :
    Nat → DateT → List Draft → List DailyProblem
  | _, _, [] => []
  | i, current, schema :: rest =>
    let date_key := formatDate current
    let difficulty := difficulties.getD i ""
    DailyProblem.mk date_key schema.title difficulty schema.description
        schema.starter_code (mapCasesAux 0 schema.test_cases) schema.topics ::
      build_problems_go difficulties (i + 1) (nextDay current) rest

/-- `_build_problems`: date each draft by walking forward one day at a
time from the start date, difficulty by position. -/
def build_problems (batch : List Draft) (start_date : DateT) (count : Nat) :
    List DailyProblem :=
  build_problems_go (get_difficulty_sequence count) 0 start_date batch

/-- The two collections the engine writes. -/
structure EngineState where
  problems : List DailyProblem
  themes : List WeeklyTheme
deriving DecidableEq, Repr

/-- The summary dict returned by `generate_batch`. -/
structure BatchSummary where
  theme : String
  problems_created : Nat
  date_range : String
deriving DecidableEq, Repr

/-- `_pick_theme`: the forced theme when truthy (non-empty), otherwise
the stripped AI pick (`aiTheme` stands for the BAML call result). -/
def pick_theme (force_theme : Option String) (aiTheme : String) : String :=
  match force_theme with
  | some t => if t = "" then aiTheme.trim else t
  | none => aiTheme.trim

/-- `generate_batch`: resolve the start slot, pick the theme, build the
dated problem documents, bulk-insert them, then insert one theme record
covering `[start, start+count-1]`. The nondeterministic outside world is
passed in: `aiTheme` and `batch` are the external generator's outputs,
`now` the `utcnow` timestamp, `tid` the ObjectId Mongo assigns. -/
def generate_batch (st : EngineState) (today : DateT)
    (start_dateOpt : Option DateT) (count : Nat) (theme : Option String)
    (aiTheme : String) (batch : List Draft) (now tid : Nat) :
    Option (EngineState × BatchSummary) :=
  let startOpt := match start_dateOpt with
    | some s => some s
    | none => find_next_open_date st.problems today
  match startOpt with
  | none => none
  | some start_date =>
    let start_str := formatDate start_date
    let end_str := formatDate (addDays start_date (count - 1))
    let chosen_theme := pick_theme theme aiTheme
    let problems := build_problems batch start_date count
    let st2 : EngineState := ⟨st.problems ++ problems,
      st.themes ++
        [⟨tid, chosen_theme, start_str, end_str, problems.length, none, now⟩]⟩
    some (st2, ⟨chosen_theme, problems.length, start_str ++ " → " ++ end_str⟩)

/-! ## Admin dashboard (`src/admin/main.py`) -/

/-- The condition of the loop body of `_find_theme_for_date`: the two
nested `if`s — a truthiness guard on both range fields (empty legacy
fields are skipped) and the inclusive containment
`t.start_date <= date_key <= t.end_date`. -/
def ftfdCond (t : WeeklyTheme) (date_key : String) : Bool :=
  (t.start_date != "" && t.end_date != "") &&
    (pyLe t.start_date date_key && pyLe date_key t.end_date)

/-- `_find_theme_for_date` closure of `_get_calendar_data`: scan the
theme list (already sorted most-recently-generated first) and return the
display tuple `(theme, label, color, theme_id)` of the first theme whose
date range contains the key; themes with an empty (legacy) `start_date`
or `end_date` are skipped. `colorMap` stands for the precomputed
`theme_color_map.get(·, "#58a6ff")` lookup. -/
def find_theme_for_date (themes : List WeeklyTheme) (colorMap : String → String)
    (date_key : String) : String × String × String × Option Nat :=
  match themes with
  | [] => ("", "", "", none)
  | t :: rest =>
    if ftfdCond t date_key then
      (t.theme, t.start_date ++ " → " ++ t.end_date, colorMap t.theme, some t.tid)
    else find_theme_for_date rest colorMap date_key

/-- One entry of the `POST /api/generate` request body. -/
structure BatchDef where
  start_date : String := ""
  count : Nat := 7
  theme : String := ""
deriving DecidableEq, Repr

/-- One entry of the `results` array: `{batch: i+1, **summary}` or
`{batch: i+1, error: msg}`. -/
inductive BatchEntry where
  | success (batch : Nat) (result : BatchSummary)
  | failure (batch : Nat) (error : String)
deriving DecidableEq, Repr

/-- What the loop body of `api_generate_batches` does for the batch at
0-based index `i`: parse the start date (appending an error entry on
`ValueError`), then call `generate_batch`, catching any exception into
an error entry. `outcomes i` abstracts the i-th `generate_batch` call:
`.ok` a summary, or `.error` the stringified exception. -/
def process_batch (outcomes : Nat → Except String BatchSummary) (i : Nat)
    (b : BatchDef) : BatchEntry :=
  match strptimeDate b.start_date with
  | none => .failure (i + 1) ("Invalid date: " ++ b.start_date)
  | some _ =>
    match outcomes i with
    | .error e => .failure (i + 1) e
    | .ok r => .success (i + 1) r

/-- The sequential loop of `api_generate_batches`. -/
def api_generate_batches_go (outcomes : Nat → Except String BatchSummary) :
    Nat → List BatchDef → List BatchEntry
  | _, [] => []
  | i, b :: rest =>
    (match strptimeDate b.start_date with
     | none => BatchEntry.failure (i + 1) ("Invalid date: " ++ b.start_date)
     | some _ =>
       match outcomes i with
       | .error e => BatchEntry.failure (i + 1) e
       | .ok r => BatchEntry.success (i + 1) r) ::
      api_generate_batches_go outcomes (i + 1) rest

/-- `api_generate_batches` (`POST /api/generate`): process every batch
in order, collecting per-batch success/error entries and the total
number of problems created. -/
def api_generate_batches (batches : List BatchDef)
    (outcomes : Nat → Except String BatchSummary) : List BatchEntry × Nat :=
  let results := api_generate_batches_go outcomes 0 batches
  (results,
    (results.map (fun e => match e with
      | .success _ r => r.problems_created
      | .failure _ _ => 0)).sum)

/-- `api_move_problem` (`POST /api/move`): 404 when the source date has
no problem, 409 when the target date is occupied; otherwise insert a
copy under the new id and delete the old document. The store is returned
alongside the error so "unchanged on failure" is expressible. -/
def api_move_problem (store : List DailyProblem) (from_date to_date : String) :
    Option ApiError × List DailyProblem :=
  match storeGet store from_date with
  | none => (some .notFound, store)
  | some problem =>
    match storeGet store to_date with
    | some _ => (some .duplicateKey, store)
    | none =>
      let new_problem : DailyProblem := { problem with id := to_date }
      let after_insert := store ++ [new_problem]
      let after_delete := after_insert.filter (fun q => q.id != from_date)
      (none, after_delete)

/-! ## Claim theorems -/

/-- C5: `difficulty_sequence(count)` is a pure function of `count`; for
every `count` it has length `count` and its `i`-th element is the fixed
7-element cycle `[Easy, Easy, Medium, Medium, Hard, Hard, Medium]`
indexed by `i mod 7`; and `difficulty_sequence(14)` is
`difficulty_sequence(7)` concatenated with itself. (Purity is inherent:
the embedding shows the sequence depends on nothing but `count`.) -/
theorem c5_difficulty_sequence_cycles (count : Nat) :
    (get_difficulty_sequence count).length = count ∧
    (∀ i, i < count →
      (get_difficulty_sequence count).getD i "" =
        ["Easy", "Easy", "Medium", "Medium", "Hard", "Hard", "Medium"].getD
          (i % 7) "") ∧
    get_difficulty_sequence 14 =
      get_difficulty_sequence 7 ++ get_difficulty_sequence 7 := by
  refine ⟨by simp [get_difficulty_sequence], ?_, by decide⟩
  intro i hi
  unfold get_difficulty_sequence
  rw [List.getD_eq_getElem?_getD, List.getElem?_map, List.getElem?_range hi]
  rfl

/-- C5 witness at `count = 14`, `i = 9`. -/
theorem c5_witness :
    (get_difficulty_sequence 14).length = 14 ∧
    (get_difficulty_sequence 14).getD 9 "" =
      ["Easy", "Easy", "Medium", "Medium", "Hard", "Hard", "Medium"].getD
        (9 % 7) "" ∧
    get_difficulty_sequence 14 =
      get_difficulty_sequence 7 ++ get_difficulty_sequence 7 :=
  ⟨(c5_difficulty_sequence_cycles 14).1,
   (c5_difficulty_sequence_cycles 14).2.1 9 (by decide),
   (c5_difficulty_sequence_cycles 14).2.2⟩

/-- C8: for valid `YYYY-MM-DD` date keys (the canonical keys of valid
calendar dates), Python's lexicographic string `<` agrees with the
chronological order of the denoted dates. -/
theorem c8_string_order_is_chronological (d1 d2 : DateT)
    (h1 : validDate d1) (h2 : validDate d2) :
    pyLt (formatDate d1) (formatDate d2) = true ↔ chronoLt d1 d2 := by
  obtain ⟨hy1, hm1, hd1⟩ := validDate_bounds h1
  obtain ⟨hy2, hm2, hd2⟩ := validDate_bounds h2
  show lexLt (fmtChars d1) (fmtChars d2) = true ↔ chronoLt d1 d2
  rw [lexLt_fmtChars_iff hy1 hm1 hd1 hy2 hm2 hd2,
    chronoLt_iff_keyNum hm1 hd1 hm2 hd2]

/-- C8 witness at the month boundary 2026-02-28 vs 2026-03-01. -/
theorem c8_witness :
    validDate ⟨2026, 2, 28⟩ ∧ validDate ⟨2026, 3, 1⟩ ∧
    (pyLt (formatDate ⟨2026, 2, 28⟩) (formatDate ⟨2026, 3, 1⟩) = true ↔
      chronoLt ⟨2026, 2, 28⟩ ⟨2026, 3, 1⟩) :=
  ⟨by decide, by decide,
   c8_string_order_is_chronological _ _ (by decide) (by decide)⟩

instance {ε α : Type} [DecidableEq ε] [DecidableEq α] :
    DecidableEq (Except ε α) := fun a b =>
  match a, b with
  | .ok x, .ok y =>
    if h : x = y then isTrue (by rw [h]) else isFalse (by intro hc; cases hc; exact h rfl)
  | .error x, .error y =>
    if h : x = y then isTrue (by rw [h]) else isFalse (by intro hc; cases hc; exact h rfl)
  | .ok _, .error _ => isFalse (by intro hc; cases hc)
  | .error _, .ok _ => isFalse (by intro hc; cases hc)

/-- A minimal concrete problem for witnesses. -/
def demoP (key title : String) : DailyProblem :=
  ⟨key, title, "Easy", "desc", "code", [], []⟩

/-- C1: `get_today_problem` meets the Infinite Fallback contract. When
no record exists for `today_key`: an empty store fails with
`NoContentAvailable`; a non-empty store yields the record at index
`sha256(utf8(today_key)) mod len(store)` in the store's enumeration
order, flagged as a fallback and carrying the requested date.
Determinism is inherent: the embedding exhibits the response as a
function of `today_key` and the record list alone. -/
theorem c1_fallback_selection (store : List DailyProblem) (today_key : String)
    (hmiss : storeGet store today_key = none) :
    (store.length = 0 →
      get_today_problem store today_key = .error .noContentAvailable) ∧
    (∀ h : 0 < store.length,
      get_today_problem store today_key =
        .ok ⟨store.get ⟨sha256StrNum today_key % store.length, Nat.mod_lt _ h⟩,
          true, some today_key⟩) := by
  unfold get_today_problem
  rw [hmiss]
  constructor
  · intro h0
    simp only [h0, dif_pos]
  · intro hpos
    rw [dif_neg (by omega)]

set_option maxRecDepth 400000 in
/-- C1 witness: two stored problems, none for 2026-02-12; the SHA-256
index selects the record at index `hash % 2`, flagged as fallback. -/
theorem c1_witness :
    storeGet [demoP "2026-02-10" "A", demoP "2026-02-11" "B"] "2026-02-12"
        = none ∧
    get_today_problem [demoP "2026-02-10" "A", demoP "2026-02-11" "B"]
        "2026-02-12" =
      .ok ⟨[demoP "2026-02-10" "A", demoP "2026-02-11" "B"].get
            ⟨sha256StrNum "2026-02-12" % 2, Nat.mod_lt _ (by decide)⟩,
        true, some "2026-02-12"⟩ ∧
    get_today_problem [demoP "2026-02-10" "A", demoP "2026-02-11" "B"]
        "2026-02-12" =
      .ok ⟨demoP "2026-02-10" "A", true, some "2026-02-12"⟩ :=
  ⟨by decide,
   (c1_fallback_selection _ "2026-02-12" (by decide)).2 (by decide),
   by decide⟩

/-- Modelled from the spec's words (§4.1): a strict `YYYY-MM-DD` key —
ten characters, zero-padded month and day, denoting a real calendar
date. This is the *spec's* strictness notion, stated only to settle the
claim that non-strict inputs fail with `InvalidDateFormat`; the code's
parser (`strptime`) is laxer. -/
def isStrictDateKey (s : String) : Bool :=
  match s.data with
  | [y1, y2, y3, y4, '-', m1, m2, '-', e1, e2] =>
    (isDigitCh y1 && isDigitCh y2 && isDigitCh y3 && isDigitCh y4) &&
    (isDigitCh m1 && isDigitCh m2) && (isDigitCh e1 && isDigitCh e2) &&
    (let y := natOfDigits [y1, y2, y3, y4]
     let m := natOfDigits [m1, m2]
     let d := natOfDigits [e1, e2]
     1 ≤ y && 1 ≤ m && m ≤ 12 && 1 ≤ d && d ≤ daysInMonth y m)
  | _ => false

/-- C10 counterexample: `"2026-3-2"` is not a strict `YYYY-MM-DD` key,
yet the lookup does not fail with `InvalidDateFormat`: `strptime`
accepts it (as 2026-03-02, not in the future on 2026-03-02), the store
is consulted with the raw string, and the result is `NotFound`. -/
theorem c10_counterexample :
    isStrictDateKey "2026-3-2" = false ∧
    get_problem_by_date "2026-3-2" [] ⟨2026, 3, 2⟩ ≠
      .error .invalidDateFormat ∧
    get_problem_by_date "2026-3-2" [] ⟨2026, 3, 2⟩ = .error .notFound :=
  ⟨by decide, by decide, by decide⟩

/-- C10 (amended): in the single-date lookup the error precedence is
format, then time-lock, then existence, where "format" is `strptime`'s
acceptance (which does not require zero-padded month/day): a string
`strptime` rejects fails with `InvalidDateFormat` for every store; a
parseable future date fails with `FutureContentForbidden` for every
store; hence for every future date the response is identical for any
two store contents, revealing nothing about scheduled content. -/
theorem c10_error_precedence (s : String) (today : DateT) :
    (strptimeDate s = none → ∀ store : List DailyProblem,
      get_problem_by_date s store today = .error .invalidDateFormat) ∧
    (∀ d, strptimeDate s = some d → chronoLt today d →
      ∀ store : List DailyProblem,
        get_problem_by_date s store today = .error .futureContentForbidden) ∧
    (∀ d, strptimeDate s = some d → chronoLt today d →
      ∀ store1 store2 : List DailyProblem,
        get_problem_by_date s store1 today = get_problem_by_date s store2 today) := by
  refine ⟨?_, ?_, ?_⟩
  · intro hnone store
    unfold get_problem_by_date
    rw [hnone]
  · intro d hsome hfut store
    unfold get_problem_by_date
    rw [hsome]
    simp only [if_pos hfut]
  · intro d hsome hfut store1 store2
    unfold get_problem_by_date
    rw [hsome]
    simp only [if_pos hfut]

/-- C10 witness: a `strptime`-rejected string 404s as 400 for an
arbitrary store; a future date gives the same 403 for two stores that
differ on that date. -/
theorem c10_witness :
    strptimeDate "2026-99-99" = none ∧
    get_problem_by_date "2026-99-99" [demoP "2026-02-10" "A"] ⟨2026, 3, 2⟩ =
      .error .invalidDateFormat ∧
    strptimeDate "2027-01-01" = some ⟨2027, 1, 1⟩ ∧
    chronoLt ⟨2026, 3, 2⟩ ⟨2027, 1, 1⟩ ∧
    get_problem_by_date "2027-01-01" [] ⟨2026, 3, 2⟩ =
      get_problem_by_date "2027-01-01" [demoP "2027-01-01" "secret"]
        ⟨2026, 3, 2⟩ :=
  ⟨by decide,
   (c10_error_precedence "2026-99-99" ⟨2026, 3, 2⟩).1 (by decide) _,
   by decide, by decide,
   (c10_error_precedence "2027-01-01" ⟨2026, 3, 2⟩).2.2 ⟨2027, 1, 1⟩
     (by decide) (by decide) _ _⟩

instance : Inhabited BatchEntry := ⟨.failure 0 ""⟩

instance : Inhabited BatchDef := ⟨{}⟩

/-- The 1-based batch index an entry reports. -/
def entryBatch : BatchEntry → Nat
  | .success b _ => b
  | .failure b _ => b

theorem api_generate_batches_go_spec
    (outcomes : Nat → Except String BatchSummary) (batches : List BatchDef) :
    ∀ i0 : Nat,
      (api_generate_batches_go outcomes i0 batches).length = batches.length ∧
      ∀ j, j < batches.length →
        (api_generate_batches_go outcomes i0 batches).getD j default =
          process_batch outcomes (i0 + j) (batches.getD j default) := by
  induction batches with
  | nil => intro i0; exact ⟨rfl, fun j hj => absurd hj (by simp)⟩
  | cons b rest ih =>
    intro i0
    refine ⟨by simpa [api_generate_batches_go] using (ih (i0 + 1)).1, ?_⟩
    intro j hj
    cases j with
    | zero =>
      simp only [api_generate_batches_go, List.getD_cons_zero, Nat.add_zero]
      rfl
    | succ j =>
      simp only [api_generate_batches_go, List.getD_cons_succ]
      have := (ih (i0 + 1)).2 j (by simpa using hj)
      rw [this]
      congr 1
      omega

/-- C6: in a multi-batch plan each batch contributes exactly one entry,
in order; the entry at position `j` is `process_batch` of batch `j`'s
own definition and its own `generate_batch` outcome alone (so a parse
failure or generator exception becomes a per-batch error entry while
earlier and later batches still contribute their own entries), and every
entry carries the 1-based index of its batch. -/
theorem c6_per_batch_failure_isolation (batches : List BatchDef)
    (outcomes : Nat → Except String BatchSummary) :
    (api_generate_batches batches outcomes).1.length = batches.length ∧
    (∀ j, j < batches.length →
      (api_generate_batches batches outcomes).1.getD j default =
        process_batch outcomes j (batches.getD j default)) ∧
    (∀ j, j < batches.length →
      entryBatch ((api_generate_batches batches outcomes).1.getD j default) =
        j + 1) := by
  have hs := api_generate_batches_go_spec outcomes batches 0
  refine ⟨hs.1, fun j hj => by simpa using hs.2 j hj, ?_⟩
  intro j hj
  have := hs.2 j hj
  show entryBatch ((api_generate_batches_go outcomes 0 batches).getD j default) = j + 1
  rw [this]
  unfold process_batch
  rcases strptimeDate (batches.getD j default).start_date with _ | d
  · simp [entryBatch]
  · rcases houtcome : outcomes (0 + j) with e | r <;>
      simp [houtcome, entryBatch]

/-- C6 witness: a three-batch plan whose middle batch has a bad date and
whose third generator call throws; the first batch's success is
retained, the later batch still executes, each entry carries its batch
index. -/
theorem c6_witness :
    (api_generate_batches
        [⟨"2026-03-02", 7, "Graphs"⟩, ⟨"bad-date", 7, ""⟩, ⟨"2026-03-16", 7, ""⟩]
        (fun i => if i = 0 then .ok ⟨"Graphs", 7, "2026-03-02 → 2026-03-08"⟩
                  else .error "generator exploded")).1.length = 3 ∧
    (api_generate_batches
        [⟨"2026-03-02", 7, "Graphs"⟩, ⟨"bad-date", 7, ""⟩, ⟨"2026-03-16", 7, ""⟩]
        (fun i => if i = 0 then .ok ⟨"Graphs", 7, "2026-03-02 → 2026-03-08"⟩
                  else .error "generator exploded")).1.getD 1 default =
      process_batch
        (fun i => if i = 0 then .ok ⟨"Graphs", 7, "2026-03-02 → 2026-03-08"⟩
                  else .error "generator exploded") 1 ⟨"bad-date", 7, ""⟩ ∧
    entryBatch ((api_generate_batches
        [⟨"2026-03-02", 7, "Graphs"⟩, ⟨"bad-date", 7, ""⟩, ⟨"2026-03-16", 7, ""⟩]
        (fun i => if i = 0 then .ok ⟨"Graphs", 7, "2026-03-02 → 2026-03-08"⟩
                  else .error "generator exploded")).1.getD 2 default) = 3 :=
  ⟨(c6_per_batch_failure_isolation _ _).1,
   (c6_per_batch_failure_isolation _ _).2.1 1 (by decide),
   (c6_per_batch_failure_isolation _ _).2.2 2 (by decide)⟩

/-- "The inclusive range `[start_date, end_date]` contains `date_key`"
(under the date-key string order). -/
def coversDate (t : WeeklyTheme) (k : String) : Bool :=
  pyLe t.start_date k && pyLe k t.end_date

theorem ftfdCond_eq_covers {t : WeeklyTheme} (k : String)
    (h1 : t.start_date ≠ "") (h2 : t.end_date ≠ "") :
    ftfdCond t k = coversDate t k := by
  simp [ftfdCond, coversDate, bne_iff_ne.mpr h1, bne_iff_ne.mpr h2]

theorem ftfd_eq_none (cm : String → String) (k : String) :
    ∀ themes : List WeeklyTheme,
      (∀ t ∈ themes, ftfdCond t k = false) →
      find_theme_for_date themes cm k = ("", "", "", none) := by
  intro themes
  induction themes with
  | nil => intro _; rfl
  | cons t rest ih =>
    intro h
    have hc := h t (List.mem_cons_self t rest)
    simp only [find_theme_for_date]
    rw [if_neg (by simp [hc])]
    exact ih (fun x hx => h x (List.mem_cons_of_mem _ hx))

theorem ftfd_first (cm : String → String) (k : String) :
    ∀ (themes : List WeeklyTheme) (i : Nat) (hi : i < themes.length),
      ftfdCond (themes.get ⟨i, hi⟩) k = true →
      (∀ j (hj : j < i), ftfdCond (themes.get ⟨j, Nat.lt_trans hj hi⟩) k = false) →
      find_theme_for_date themes cm k =
        ((themes.get ⟨i, hi⟩).theme,
         (themes.get ⟨i, hi⟩).start_date ++ " → " ++ (themes.get ⟨i, hi⟩).end_date,
         cm (themes.get ⟨i, hi⟩).theme,
         some (themes.get ⟨i, hi⟩).tid) := by
  intro themes
  induction themes with
  | nil => intro i hi; exact absurd hi (by simp)
  | cons t rest ih =>
    intro i hi hcov hprev
    cases i with
    | zero =>
      simp only [List.get] at hcov ⊢
      simp only [find_theme_for_date]
      rw [if_pos hcov]
    | succ i =>
      have h0 := hprev 0 (Nat.succ_pos i)
      simp only [List.get] at h0 hcov ⊢
      simp only [find_theme_for_date]
      rw [if_neg (by simp [h0])]
      exact ih i (by simpa using Nat.lt_of_succ_lt_succ hi) hcov
        (fun j hj => hprev (j + 1) (Nat.succ_lt_succ hj))

/-- C7: `_find_theme_for_date` returns the tuple of the first theme in
the registry's iteration order whose inclusive `[start_date, end_date]`
range contains `date_key`, and the empty sentinel when none does; when
ranges overlap, the first in iteration order wins, with no overlap
resolution. (Stated for themes with well-formed, non-empty range
fields; the code additionally skips legacy records with empty fields.) -/
theorem c7_find_covering_first_match (themes : List WeeklyTheme)
    (cm : String → String) (k : String)
    (hwf : ∀ t ∈ themes, t.start_date ≠ "" ∧ t.end_date ≠ "") :
    ((∀ t ∈ themes, coversDate t k = false) →
      find_theme_for_date themes cm k = ("", "", "", none)) ∧
    (∀ i, ∀ hi : i < themes.length,
      coversDate (themes.get ⟨i, hi⟩) k = true →
      (∀ j, ∀ hj : j < i, coversDate (themes.get ⟨j, Nat.lt_trans hj hi⟩) k = false) →
      find_theme_for_date themes cm k =
        ((themes.get ⟨i, hi⟩).theme,
         (themes.get ⟨i, hi⟩).start_date ++ " → " ++ (themes.get ⟨i, hi⟩).end_date,
         cm (themes.get ⟨i, hi⟩).theme,
         some (themes.get ⟨i, hi⟩).tid)) := by
  constructor
  · intro hall
    refine ftfd_eq_none cm k themes (fun t ht => ?_)
    rw [ftfdCond_eq_covers k (hwf t ht).1 (hwf t ht).2]
    exact hall t ht
  · intro i hi hcov hprev
    refine ftfd_first cm k themes i hi ?_ (fun j hj => ?_)
    · rw [ftfdCond_eq_covers k (hwf _ (themes.get_mem _ _)).1
        (hwf _ (themes.get_mem _ _)).2]
      exact hcov
    · rw [ftfdCond_eq_covers k (hwf _ (themes.get_mem _ _)).1
        (hwf _ (themes.get_mem _ _)).2]
      exact hprev j hj

/-- C7 witness: two overlapping ranges, both containing 2026-03-05; the
first in iteration order (the most recently generated) wins. -/
theorem c7_witness :
    coversDate ⟨1, "Graphs", "2026-03-01", "2026-03-07", 7, none, 200⟩
      "2026-03-05" = true ∧
    coversDate ⟨2, "Trees", "2026-03-05", "2026-03-11", 7, none, 100⟩
      "2026-03-05" = true ∧
    find_theme_for_date
      [⟨1, "Graphs", "2026-03-01", "2026-03-07", 7, none, 200⟩,
       ⟨2, "Trees", "2026-03-05", "2026-03-11", 7, none, 100⟩]
      (fun _ => "#d29922") "2026-03-05" =
      ("Graphs", "2026-03-01 → 2026-03-07", "#d29922", some 1) :=
  ⟨by decide, by decide,
   (c7_find_covering_first_match _ (fun _ => "#d29922") "2026-03-05"
      (by decide)).2 0 (by decide) (by decide)
      (fun j hj => absurd hj (Nat.not_lt_zero j))⟩

theorem find?_append_none {α : Type} (p : α → Bool) {l1 : List α}
    (l2 : List α) (h : l1.find? p = none) :
    (l1 ++ l2).find? p = l2.find? p := by
  induction l1 with
  | nil => rfl
  | cons a l1 ih =>
    have ha : p a = false := by
      cases hpa : p a with
      | false => rfl
      | true => rw [List.find?_cons_of_pos _ hpa] at h; cases h
    rw [List.find?_cons_of_neg _ (by simp [ha])] at h
    rw [List.cons_append, List.find?_cons_of_neg _ (by simp [ha])]
    exact ih h

/-- C9: the admin move preserves the one-record-per-date invariant. On a
store satisfying it, moving the problem at `from_date`: to an occupied
`to_date` fails with the duplicate-date conflict and returns the store
unchanged; to a free `to_date` succeeds, leaving the record's content
under the new key, nothing under the old key, and the invariant intact. -/
theorem c9_move_preserves_uniqueness (store : List DailyProblem)
    (from_date to_date : String) (p : DailyProblem)
    (hinv : (store.map DailyProblem.id).Nodup)
    (hfrom : storeGet store from_date = some p) :
    (∀ q, storeGet store to_date = some q →
      api_move_problem store from_date to_date = (some .duplicateKey, store)) ∧
    (storeGet store to_date = none →
      (api_move_problem store from_date to_date).1 = none ∧
      storeGet (api_move_problem store from_date to_date).2 to_date =
        some { p with id := to_date } ∧
      storeGet (api_move_problem store from_date to_date).2 from_date = none ∧
      ((api_move_problem store from_date to_date).2.map DailyProblem.id).Nodup) := by
  constructor
  · intro q hq
    simp only [api_move_problem, hfrom, hq]
  · intro hnone
    have hto_new : ∀ q ∈ store, q.id ≠ to_date := by
      intro q hq heq
      have := List.find?_eq_none.mp hnone q hq
      simp [heq] at this
    have hfromne : to_date ≠ from_date := by
      intro heq
      rw [heq, hfrom] at hnone
      cases hnone
    have hred : api_move_problem store from_date to_date =
        (none, (store ++ [{ p with id := to_date }]).filter
          (fun (q : DailyProblem) => q.id != from_date)) := by
      simp only [api_move_problem, hfrom, hnone]
    rw [hred]
    refine ⟨rfl, ?_, ?_, ?_⟩
    · show ((store ++ [{ p with id := to_date }]).filter
        (fun (q : DailyProblem) => q.id != from_date)).find?
          (fun (q : DailyProblem) => q.id == to_date) =
          some { p with id := to_date }
      rw [List.filter_append]
      rw [find?_append_none _ _ (List.find?_eq_none.mpr ?_)]
      · have hone : ([{ p with id := to_date }].filter
            (fun (q : DailyProblem) => q.id != from_date)) =
              [{ p with id := to_date }] := by
          simp [bne_iff_ne.mpr hfromne]
        rw [hone, List.find?_cons_of_pos _ (by simp)]
      · intro x hx
        have := hto_new x (List.mem_filter.mp hx).1
        simp [this]
    · show ((store ++ [{ p with id := to_date }]).filter
        (fun (q : DailyProblem) => q.id != from_date)).find?
          (fun (q : DailyProblem) => q.id == from_date) = none
      refine List.find?_eq_none.mpr (fun x hx => ?_)
      have := (List.mem_filter.mp hx).2
      simp only [bne_iff_ne] at this
      simp [this]
    · have hsub : List.Sublist
          (((store ++ [{ p with id := to_date }]).filter
            (fun (q : DailyProblem) => q.id != from_date)).map DailyProblem.id)
          ((store ++ [{ p with id := to_date }]).map DailyProblem.id) :=
        (List.filter_sublist _).map _
      refine List.Nodup.sublist hsub ?_
      rw [List.map_append]
      rw [List.nodup_append]
      refine ⟨hinv, by simp, ?_⟩
      intro a ha hb
      simp only [List.map_cons, List.map_nil, List.mem_singleton] at hb
      obtain ⟨q, hq, hqa⟩ := List.mem_map.mp ha
      exact hto_new q hq (by rw [hqa]; simpa using hb)

/-- C9 witness: on a two-record store, moving 2026-02-10 onto the
occupied 2026-02-11 conflicts and leaves the store unchanged; moving it
to the free 2026-02-12 relocates the content and keeps the invariant. -/
theorem c9_witness :
    api_move_problem [demoP "2026-02-10" "A", demoP "2026-02-11" "B"]
        "2026-02-10" "2026-02-11" =
      (some .duplicateKey, [demoP "2026-02-10" "A", demoP "2026-02-11" "B"]) ∧
    (api_move_problem [demoP "2026-02-10" "A", demoP "2026-02-11" "B"]
        "2026-02-10" "2026-02-12").1 = none ∧
    storeGet (api_move_problem [demoP "2026-02-10" "A", demoP "2026-02-11" "B"]
        "2026-02-10" "2026-02-12").2 "2026-02-12" =
      some { demoP "2026-02-10" "A" with id := "2026-02-12" } ∧
    storeGet (api_move_problem [demoP "2026-02-10" "A", demoP "2026-02-11" "B"]
        "2026-02-10" "2026-02-12").2 "2026-02-10" = none ∧
    ((api_move_problem [demoP "2026-02-10" "A", demoP "2026-02-11" "B"]
        "2026-02-10" "2026-02-12").2.map DailyProblem.id).Nodup :=
  ⟨(c9_move_preserves_uniqueness _ "2026-02-10" "2026-02-11"
      (demoP "2026-02-10" "A") (by decide) (by decide)).1
      (demoP "2026-02-11" "B") (by decide),
   (c9_move_preserves_uniqueness _ "2026-02-10" "2026-02-12"
      (demoP "2026-02-10" "A") (by decide) (by decide)).2 (by decide)⟩

/-- C3: refuted as stated, and a code bug: the claim (and the
function's own docstring, "Find the day after the latest scheduled
problem in the DB") require the record with the lexicographically
greatest date key, but the sort tuple `("-_id", -1)` names a
nonexistent field, so the query degenerates to natural order and the
function returns the day after the *first-inserted* record. On a store
inserted in the order 2026-02-10, 2026-02-12, 2026-02-11 (latest key
2026-02-12) it returns 2026-02-11, not the claimed 2026-02-13; the
empty-store half of the claim (today's UTC date) does hold. -/
theorem c3_next_open_date_bug :
    findLatestByKey
      [demoP "2026-02-10" "A", demoP "2026-02-12" "C", demoP "2026-02-11" "B"] =
      some (demoP "2026-02-10" "A") ∧
    find_next_open_date
      [demoP "2026-02-10" "A", demoP "2026-02-12" "C", demoP "2026-02-11" "B"]
      ⟨2026, 2, 5⟩ = some ⟨2026, 2, 11⟩ ∧
    find_next_open_date
      [demoP "2026-02-10" "A", demoP "2026-02-12" "C", demoP "2026-02-11" "B"]
      ⟨2026, 2, 5⟩ ≠ some ⟨2026, 2, 13⟩ ∧
    find_next_open_date [] ⟨2026, 2, 5⟩ = some ⟨2026, 2, 5⟩ :=
  ⟨by decide, by decide, by decide, by decide⟩

/-- C4: the time-lock never exposes content dated after today. A
single-date lookup of any canonical date key strictly greater (in the
date-key string order) than today's key fails with
`FutureContentForbidden` for every store; every calendar listing omits
every entry dated after today; every theme listing contains only themes
with `start_date <= today`. -/
theorem c4_time_lock_no_future_content (d t : DateT)
    (hd : validDate d) (ht : validDate t)
    (hfut : pyLt (formatDate t) (formatDate d) = true) :
    (∀ store : List DailyProblem,
      get_problem_by_date (formatDate d) store t =
        .error .futureContentForbidden) ∧
    (∀ (year mnum : Nat) (store : List DailyProblem) (todayKey : String)
        (entries : List CalEntry),
      get_month_calendar year mnum store todayKey = .ok entries →
      ∀ e ∈ entries, pyLt todayKey e.date = false) ∧
    (∀ (monthOpt : Option (Nat × Nat)) (themes : List WeeklyTheme)
        (todayKey : String),
      ∀ th ∈ get_themes monthOpt themes todayKey,
        pyLe th.start_date todayKey = true) := by
  have hc : chronoLt t d := by
    obtain ⟨hy1, hm1, hd1⟩ := validDate_bounds ht
    obtain ⟨hy2, hm2, hd2⟩ := validDate_bounds hd
    rw [chronoLt_iff_keyNum hm1 hd1 hm2 hd2]
    exact (lexLt_fmtChars_iff hy1 hm1 hd1 hy2 hm2 hd2).mp hfut
  refine ⟨?_, ?_, ?_⟩
  · intro store
    simp only [get_problem_by_date, strptime_format hd, if_pos hc]
  · intro year mnum store todayKey entries hok e he
    unfold get_month_calendar at hok
    by_cases hm : 1 ≤ mnum ∧ mnum ≤ 12
    · rw [if_pos hm] at hok
      cases hok
      rw [mem_pySort] at he
      obtain ⟨p, hp, hpe⟩ := List.mem_map.mp he
      have hkeep := (List.mem_filter.mp hp).2
      rw [← hpe]
      simpa using hkeep
    · rw [if_neg hm] at hok
      cases hok
  · intro monthOpt themes todayKey th hth
    unfold get_themes at hth
    rw [mem_pySort] at hth
    have hkeep := (List.mem_filter.mp hth).2
    simp only [Bool.and_eq_true] at hkeep
    exact hkeep.1

/-- C4 witness: the spec's example future lookup 403s; a calendar with a
record on 2026-02-20 omits it on 2026-02-12 and keeps 2026-02-10; a
theme listing on 2026-02-12 contains only themes started by then. -/
theorem c4_witness :
    get_problem_by_date "2099-01-01" [] ⟨2025, 1, 1⟩ =
      .error .futureContentForbidden ∧
    get_month_calendar 2026 2 [demoP "2026-02-10" "A", demoP "2026-02-20" "B"]
      "2026-02-12" = .ok [⟨"2026-02-10", "A", "Easy"⟩] ∧
    pyLt "2026-02-12" "2026-02-10" = false ∧
    pyLe "2026-02-01" "2026-02-12" = true :=
  ⟨by
    rw [show ("2099-01-01" : String) = formatDate ⟨2099, 1, 1⟩ from by decide]
    exact (c4_time_lock_no_future_content ⟨2099, 1, 1⟩ ⟨2025, 1, 1⟩
      (by decide) (by decide) (by decide)).1 [],
   by decide,
   (c4_time_lock_no_future_content ⟨2099, 1, 1⟩ ⟨2025, 1, 1⟩
      (by decide) (by decide) (by decide)).2.1 2026 2
      [demoP "2026-02-10" "A", demoP "2026-02-20" "B"] "2026-02-12"
      [⟨"2026-02-10", "A", "Easy"⟩] (by decide)
      ⟨"2026-02-10", "A", "Easy"⟩ (by decide),
   (c4_time_lock_no_future_content ⟨2099, 1, 1⟩ ⟨2025, 1, 1⟩
      (by decide) (by decide) (by decide)).2.2 none
      [⟨1, "G", "2026-02-01", "2026-02-07", 7, none, 5⟩,
       ⟨2, "F", "2026-03-01", "2026-03-07", 7, none, 6⟩] "2026-02-12"
      ⟨1, "G", "2026-02-01", "2026-02-07", 7, none, 5⟩ (by decide)⟩

theorem build_problems_go_length (diffs : List String) :
    ∀ (batch : List Draft) (i : Nat) (cur : DateT),
      (build_problems_go diffs i cur batch).length = batch.length := by
  intro batch
  induction batch with
  | nil => intro i cur; rfl
  | cons s rest ih =>
    intro i cur
    simp only [build_problems_go, List.length_cons, ih]

theorem build_problems_go_ids (diffs : List String) :
    ∀ (batch : List Draft) (i : Nat) (cur : DateT),
      (build_problems_go diffs i cur batch).map (fun p => p.id) =
        (List.range batch.length).map (fun j => formatDate (addDays cur j)) := by
  intro batch
  induction batch with
  | nil => intro i cur; rfl
  | cons s rest ih =>
    intro i cur
    simp only [build_problems_go, List.map_cons, List.length_cons]
    rw [ih (i + 1) (nextDay cur), List.range_succ_eq_map, List.map_cons,
      List.map_map]
    refine congrArg₂ _ rfl (List.map_congr_left (fun j _ => ?_))
    rfl

theorem build_problems_go_diffs (diffs : List String) :
    ∀ (batch : List Draft) (i : Nat) (cur : DateT),
      (build_problems_go diffs i cur batch).map (fun p => p.difficulty) =
        (List.range batch.length).map (fun j => diffs.getD (i + j) "") := by
  intro batch
  induction batch with
  | nil => intro i cur; rfl
  | cons s rest ih =>
    intro i cur
    simp only [build_problems_go, List.map_cons, List.length_cons]
    rw [ih (i + 1) (nextDay cur), List.range_succ_eq_map, List.map_cons,
      List.map_map]
    refine congrArg₂ _ rfl (List.map_congr_left (fun j _ => ?_))
    show diffs.getD (i + 1 + j) "" = diffs.getD (i + (j + 1)) ""
    congr 1
    omega

theorem getD_range_map (l : List String) :
    (List.range l.length).map (fun j => l.getD j "") = l := by
  induction l with
  | nil => rfl
  | cons x xs ih =>
    rw [List.length_cons, List.range_succ_eq_map, List.map_cons, List.map_map]
    exact congrArg₂ _ rfl ((List.map_congr_left (fun j _ => rfl)).trans ih)

/-- C2: with an explicit start date `D`, a count `N ≥ 1`, a non-empty
forced theme `T`, and a generator batch of exactly `N` drafts,
`generate_batch` appends exactly `N` problem records with the
consecutive date keys `D, D+1, …, D+N-1` and the difficulty at each
position of `difficulty_sequence(N)`, plus exactly one theme record
`(T, D, D+N-1, N)`. -/
theorem c2_generate_batch_schedule (st : EngineState) (today start : DateT)
    (count : Nat) (T aiTheme : String) (batch : List Draft) (now tid : Nat)
    (hlen : batch.length = count) (hcount : 1 ≤ count) (hT : T ≠ "") :
    ∃ newPs st2 summary,
      generate_batch st today (some start) count (some T) aiTheme batch
        now tid = some (st2, summary) ∧
      st2.problems = st.problems ++ newPs ∧
      newPs.length = count ∧
      newPs.map (fun p => p.id) =
        (List.range count).map (fun j => formatDate (addDays start j)) ∧
      newPs.map (fun p => p.difficulty) = get_difficulty_sequence count ∧
      st2.themes = st.themes ++
        [⟨tid, T, formatDate start, formatDate (addDays start (count - 1)),
          count, none, now⟩] := by
  have hplen : (build_problems batch start count).length = count := by
    rw [build_problems, build_problems_go_length, hlen]
  refine ⟨build_problems batch start count,
    ⟨st.problems ++ build_problems batch start count,
     st.themes ++ [⟨tid, T, formatDate start,
       formatDate (addDays start (count - 1)),
       (build_problems batch start count).length, none, now⟩]⟩,
    ⟨T, (build_problems batch start count).length,
     formatDate start ++ " → " ++ formatDate (addDays start (count - 1))⟩,
    ?_, rfl, hplen, ?_, ?_, ?_⟩
  · simp only [generate_batch, pick_theme, if_neg hT]
  · rw [build_problems, build_problems_go_ids, hlen]
  · rw [build_problems, build_problems_go_diffs, hlen]
    have hseq : (get_difficulty_sequence count).length = count := by
      simp [get_difficulty_sequence]
    set l := get_difficulty_sequence count with hl
    calc (List.range count).map (fun j => l.getD (0 + j) "")
        = (List.range count).map (fun j => l.getD j "") :=
          List.map_congr_left (fun j _ => by rw [Nat.zero_add])
      _ = l := by
          rw [← hseq]
          exact getD_range_map l
  · rw [hplen]

/-- C2 witness: the spec's end-to-end example — 7 drafts, forced theme
"Graphs", start 2026-03-02 — dates 2026-03-02..2026-03-08 and the
difficulty pattern of `difficulty_sequence(7)`. -/
theorem c2_witness :
    (∃ newPs st2 summary,
      generate_batch ⟨[], []⟩ ⟨2026, 3, 1⟩ (some ⟨2026, 3, 2⟩) 7
          (some "Graphs") "ignored"
          (List.replicate 7 ⟨"t", "d", "c", [], []⟩) 99 1 =
        some (st2, summary) ∧
      st2.problems = [] ++ newPs ∧
      newPs.length = 7 ∧
      newPs.map (fun p => p.id) =
        (List.range 7).map (fun j => formatDate (addDays ⟨2026, 3, 2⟩ j)) ∧
      newPs.map (fun p => p.difficulty) = get_difficulty_sequence 7 ∧
      st2.themes = [] ++
        [⟨1, "Graphs", formatDate ⟨2026, 3, 2⟩,
          formatDate (addDays ⟨2026, 3, 2⟩ 6), 7, none, 99⟩]) ∧
    (List.range 7).map (fun j => formatDate (addDays ⟨2026, 3, 2⟩ j)) =
      ["2026-03-02", "2026-03-03", "2026-03-04", "2026-03-05",
       "2026-03-06", "2026-03-07", "2026-03-08"] ∧
    get_difficulty_sequence 7 =
      ["Easy", "Easy", "Medium", "Medium", "Hard", "Hard", "Medium"] :=
  ⟨c2_generate_batch_schedule ⟨[], []⟩ ⟨2026, 3, 1⟩ ⟨2026, 3, 2⟩ 7
      "Graphs" "ignored" (List.replicate 7 ⟨"t", "d", "c", [], []⟩) 99 1
      (by decide) (by decide) (by decide),
   by decide, by decide⟩

end Codele
